import Mathlib

/-!
Shallow embedding of the BotPYV5 trading bot core
(`src/backend/RealtimeAnalyzerService.js` and
`src/backend/TradingEngineService.js`) and proofs about it.

Conventions of the embedding:
* JavaScript numbers appearing in the core's arithmetic are modelled as `ℚ`.
  All concrete values reached by the theorems stay inside the exactly
  representable range, and the only operation of the core whose float
  rounding could matter (`Math.log10`/`Math.pow` in `formatQuantity`) is
  modelled through the exponent of a power-of-ten step size, on which the
  float computation is exact.
* JavaScript `Map`s are modelled as association lists with `mapGet` /
  `mapSet` / `mapErase` mirroring `get` / `set` / `delete`.
* Mutation of `this.botState` is modelled by explicit state passing: each
  engine method takes a `BotState` and returns the new `BotState` together
  with the list of externally visible effects (`Event`) it produced, in
  order.  `Date.now()` is passed in as the parameter `now` (milliseconds).
* The external Binance order call is modelled by a parameter
  `orderOutcome : Except String OrderResult` giving the outcome the
  `await this.apiClient.createOrder(...)` expression would have produced
  (`.error` = the promise rejected / threw).
* A thrown-and-not-caught JavaScript error is modelled with `Except`:
  `analyzeTimeframe` on the 15m branch dereferences the unbound
  identifiers `high` and `low` (the locals are `highs` / `lows`), which in
  an ES module throws a `ReferenceError`; this is `JsErr.referenceError`.
-/

namespace BotPYV5

/-- Effects the trading engine emits to its collaborators: an exchange
order request (`this.apiClient.createOrder`), a persistence request
(`this.saveData('state')`) and the `POSITIONS_UPDATED` broadcast. Log
lines are not tracked. -/
inductive Event
  | createOrder (symbol : String) (side : String) (orderType : String) (quantity : ℚ)
  | saveState
  | positionsUpdated
deriving DecidableEq, Repr

/-- The `score` strings produced by the analyzer / consumed by the engine. -/
inductive Score
  | STRONG_BUY
  | IGNITION_DETECTED
  | MOMENTUM_BUY
  | PENDING_CONFIRMATION
  | COMPRESSION
  | HOLD
deriving DecidableEq, Repr

/-- The `strategy_type` strings attached to a pair by the three evaluators. -/
inductive StrategyType
  | IGNITION
  | MOMENTUM
  | PRECISION
deriving DecidableEq, Repr

/-- Value of `botState.tradingMode`. -/
inductive TradingMode
  | VIRTUAL
  | REAL_PAPER
  | REAL_LIVE
deriving DecidableEq, Repr

/-- Lifecycle `status` field of a trade. -/
inductive TradeStatus
  | FILLED
  | CLOSED
deriving DecidableEq, Repr

/-- One formatted OHLCV candle (`{open, high, low, close, volume}` after the
`parseFloat` conversions; the field `open` is named `o` because `open` is a
Lean keyword, and the raw 5m-kline payload fields `k.o` / `k.c` used by
`checkConfirmationsOn5mClose` coincide with these). -/
structure Kline where
  o : ℚ
  h : ℚ
  l : ℚ
  c : ℚ
  v : ℚ
deriving DecidableEq, Repr

/-- The analyzed-pair record fields that the trading engine reads
(`const { symbol, score, atr_15m, price } = pair` plus `strategy_type`).
`atr_15m` is `none` when the field is absent and `some 0` would be the
JavaScript value `0`; both are falsy in `settings.USE_ATR_STOP_LOSS && atr_15m`. -/
structure Pair where
  symbol : String
  score : Score
  atr_15m : Option ℚ
  price : ℚ
  strategy_type : StrategyType
deriving DecidableEq, Repr

/-- The settings fields read by `TradingEngineService`; the field
`RISK_REWARD` models the setting named `RISK_REWARD_RATIO` in the source. -/
structure Settings where
  MAX_OPEN_POSITIONS : ℕ
  POSITION_SIZE_PCT : ℚ
  STRONG_BUY_POSITION_SIZE_PCT : ℚ
  USE_DYNAMIC_POSITION_SIZING : Bool
  USE_ATR_STOP_LOSS : Bool
  ATR_MULTIPLIER : ℚ
  STOP_LOSS_PCT : ℚ
  RISK_REWARD : ℚ
  LOSS_COOLDOWN_HOURS : ℚ
  USE_IGNITION_TRAILING_STOP : Bool
  IGNITION_TRAILING_STOP_PCT : ℚ
  USE_MTF_VALIDATION : Bool
deriving DecidableEq, Repr

/-- A position / trade object as built by `openPosition`.  The fields
`entry_time`, `exit_time` (ISO strings only used for display) are omitted;
`exit_price` is `none` until `closePosition` sets it. -/
structure Trade where
  id : ℕ
  mode : TradingMode
  symbol : String
  side : String
  entry_price : ℚ
  average_entry_price : ℚ
  quantity : ℚ
  target_quantity : ℚ
  stop_loss : ℚ
  take_profit : ℚ
  status : TradeStatus
  pnl : ℚ
  pnl_pct : ℚ
  entry_snapshot : Pair
  highest_price_since_entry : ℚ
  total_cost_usd : ℚ
  strategy_type : StrategyType
  exit_price : Option ℚ
deriving DecidableEq, Repr

/-- An entry of the `pendingConfirmation` map: `{ pair, timestamp }`. -/
structure PendingEntry where
  pair : Pair
  timestamp : ℚ
deriving DecidableEq, Repr

/-- Model of `Map.prototype.get`, as an association-list lookup. -/
def mapGet {α : Type} (m : List (String × α)) (k : String) : Option α :=
  (m.find? (fun e => e.1 = k)).map (fun e => e.2)

/-- Model of `Map.prototype.set`: replace the entry for the key if present,
otherwise append it. -/
def mapSet {α : Type} : List (String × α) → String → α → List (String × α)
  | [], k, v => [(k, v)]
  | e :: rest, k, v => if e.1 = k then (k, v) :: rest else e :: mapSet rest k v

/-- Model of `Map.prototype.delete`. -/
def mapErase {α : Type} (m : List (String × α)) (k : String) : List (String × α) :=
  m.filter (fun e => ¬ e.1 = k)

/-- The shared mutable `botState` (the fields `TradingEngineService` touches)
together with the engine-level fields `this.apiClient` (modelled by the
Boolean `hasApiClient`, its truthiness) and `this.symbolRules`.  A symbol
rule stores the exponent `e` of the `LOT_SIZE` step size `10 ^ e`
(Binance step sizes are powers of ten; on those the float
`Math.log10` / `Math.pow` in `formatQuantity` are exact). -/
structure BotState where
  isRunning : Bool
  tradingMode : TradingMode
  balance : ℚ
  activePositions : List Trade
  tradeHistory : List Trade
  tradeIdCounter : ℕ
  recentlyLostSymbols : List (String × ℚ)
  pendingConfirmation : List (String × PendingEntry)
  priceCache : List (String × ℚ)
  settings : Settings
  hasApiClient : Bool
  symbolRules : List (String × ℤ)
deriving DecidableEq, Repr

/-! ## RealtimeAnalyzerService: the 15-minute branch of `analyzeTimeframe`

`BollingerBands.calculate({ period: 20, values: closes, stdDev: 2 })` of the
`technicalindicators` library involves a real square root (the standard
deviation), so the list of `{upper, middle, lower}` records it returns is
kept abstract: the squeeze computation is a function of that list, and
`analyzeTimeframe` takes the library function as the parameter `bbCalc`. -/

/-- One record of the `BollingerBands.calculate` output. -/
structure BBRec where
  upper : ℚ
  middle : ℚ
  lower : ℚ
deriving DecidableEq, Repr

/-- The mapped band width `((b.upper - b.lower) / b.middle) * 100`
(division by zero yields `0` in `ℚ`; in JavaScript the `0/0` case is `NaN`
and is removed by the filter modelled in `bbWidthPcts`). -/
def widthPct (b : BBRec) : ℚ :=
  (b.upper - b.lower) / b.middle * 100

/-- Whether the width of `b` is the JavaScript value `NaN`: on rational
inputs `((upper - lower) / middle) * 100` is `NaN` exactly when it is
`0 / 0`. (The `x / 0 = ±Infinity` case for `x ≠ 0` is not `NaN` in
JavaScript; it cannot be represented in `ℚ` and every theorem below about
band widths hypothesises or instantiates nonzero middle bands.) -/
def widthIsNaN (b : BBRec) : Bool :=
  b.middle = 0 ∧ b.upper - b.lower = 0

/-- Model of `bb.map(b => ((b.upper - b.lower) / b.middle) * 100).filter(v => !isNaN(v))`. -/
def bbWidthPcts (bb : List BBRec) : List ℚ :=
  (bb.filter (fun b => ¬ widthIsNaN b)).map widthPct

/-- Model of `bbWidths.sort((a, b) => a - b)`: the ascending numeric sort. -/
def sortWidths (ws : List ℚ) : List ℚ :=
  List.insertionSort (fun a b => a ≤ b) ws

/-- Lines 109-114 of `RealtimeAnalyzerService.js`: read the current width
(the last element, before the in-place sort), sort, take the element at
index `Math.floor(bbWidths.length * 0.25)` (exactly `ws.length / 4` in `ℕ`)
as the squeeze threshold, and set
`result.is_in_squeeze_15m = lastWidth < squeezeThreshold` — a strict
less-than.  When the width list is empty both `lastWidth` and the
threshold are `undefined` and the JavaScript comparison is `false`. -/
def isInSqueeze15m (bb : List BBRec) : Bool :=
  let ws := bbWidthPcts bb
  match ws.getLast?, (sortWidths ws).get? (ws.length / 4) with
  | some lastWidth, some squeezeThreshold => lastWidth < squeezeThreshold
  | _, _ => false

/-- The JavaScript error that terminates the 15m branch. -/
inductive JsErr
  | referenceError
deriving DecidableEq, Repr

/-- The `'15m'` case of `analyzeTimeframe` (lines 86-134): with fewer than
21 candles it returns the empty object `{}` (modelled as `.ok ()`);
otherwise it computes the Bollinger squeeze data (pure, cannot throw) and
then evaluates `ADX.calculate({ high, low, close: closes, period: 14 })` —
but no variables `high` / `low` are in scope (the locals are `highs` and
`lows`), so in an ES module this line throws `ReferenceError` before any
value is returned. -/
def analyzeTimeframe15m (bbCalc : List ℚ → List BBRec) (klines : List Kline) :
    Except JsErr Unit :=
  if klines.length < 21 then .ok ()
  else
    let closes := klines.map (fun k => k.c)
    let bb := bbCalc closes
    let _is_in_squeeze_15m := isInSqueeze15m bb
    .error .referenceError

/-- Model of `runFullAnalysis` (lines 62-84): after fetching, it returns `null`
unless `klines15m.length ≥ 50 ∧ klines1h.length ≥ 21 ∧ klines4h.length ≥ 51
∧ klines1m.length ≥ 21`, then runs the per-timeframe analyses inside the
`try`.  The analyses of the 1m/5m/1h/4h branches and `evaluateStrategy`
are pure and cannot throw; everything executed after the 15m analysis is
abstracted into the parameter `rest` (it is never reached, whatever it
computes: the 15m analysis throws, the `catch` logs and returns `null`). -/
def runFullAnalysis (bbCalc : List ℚ → List BBRec) (rest : Unit → Pair)
    (klines1m klines5m klines15m klines1h klines4h : List Kline) : Option Pair :=
  if klines15m.length < 50 ∨ klines1h.length < 21 ∨ klines4h.length < 51 ∨
      klines1m.length < 21 then none
  else
    match analyzeTimeframe15m bbCalc klines15m with
    | .error _ => none
    | .ok a => some (rest a)

/-- Model of `hydrateSymbol` (lines 30-40): `null` when fewer than 50 15m candles,
otherwise `analyzeTimeframe(klines15m, '15m')` inside a `try` whose `catch`
returns `null`; `rest` abstracts the merge `{ ...baseData, ...analysis15m }`. -/
def hydrateSymbol (bbCalc : List ℚ → List BBRec) (rest : Unit → Pair)
    (klines15m : List Kline) : Option Pair :=
  if klines15m.length < 50 then none
  else
    match analyzeTimeframe15m bbCalc klines15m with
    | .error _ => none
    | .ok a => some (rest a)

/-! ## TradingEngineService -/

/-- Result object of a successful `createOrder`: the engine reads
`orderResult.fills[0].price` and `orderResult.executedQty`.
`fillPrices` lists the `price` fields of `fills`; an empty `fills` array
makes `fills[0].price` throw `TypeError`, which lands in the same `catch`
as a failed order. -/
structure OrderResult where
  fillPrices : List ℚ
  executedQty : ℚ
deriving DecidableEq, Repr

/-- Model of `formatQuantity` (lines 237-244).  `rules.stepSize` is `10 ^ e` for the
stored exponent `e` (never `0`, so the `!rules.stepSize` falsiness guard is
subsumed by the `none` case): with no rule, `parseFloat(quantity.toFixed(8))`
rounds to the nearest multiple of `10⁻⁸` (ties toward the larger value, per
the `toFixed` specification); with `stepSize === 1` (`e = 0`),
`Math.floor(quantity)`; otherwise truncate at
`precision = Math.max(0, -Math.log10(stepSize)) = max 0 (-e)` decimals via
`Math.floor(quantity * 10 ^ precision) / 10 ^ precision`. -/
def formatQuantity (rules : List (String × ℤ)) (symbol : String) (quantity : ℚ) : ℚ :=
  match mapGet rules symbol with
  | none => ((⌊quantity * 10 ^ 8 + 1 / 2⌋ : ℤ) : ℚ) / 10 ^ 8
  | some e =>
    if e = 0 then ((⌊quantity⌋ : ℤ) : ℚ)
    else
      let precision : ℕ := (max 0 (-e)).toNat
      let factor : ℚ := 10 ^ precision
      ((⌊quantity * factor⌋ : ℤ) : ℚ) / factor

/-- Model of `openPosition` (lines 97-144).  Builds `newTrade` (incrementing
`tradeIdCounter` in the process), and in `REAL_LIVE` mode with an api
client first places a market order: on a thrown/failed order (or an empty
`fills` array) it logs and returns with nothing else changed; on success
it overwrites `entry_price` and `quantity` with the executed fill.  It then
debits the balance by `entry_price * quantity`, appends the trade to
`activePositions`, saves and broadcasts. -/
def openPosition (s : BotState) (pair : Pair) (quantity stopLoss takeProfit : ℚ)
    (orderOutcome : Except String OrderResult) : BotState × List Event :=
  let newTrade : Trade :=
    { id := s.tradeIdCounter
      mode := s.tradingMode
      symbol := pair.symbol
      side := "BUY"
      entry_price := pair.price
      average_entry_price := pair.price
      quantity := quantity
      target_quantity := quantity
      stop_loss := stopLoss
      take_profit := takeProfit
      status := .FILLED
      pnl := 0
      pnl_pct := 0
      entry_snapshot := pair
      highest_price_since_entry := pair.price
      total_cost_usd := pair.price * quantity
      strategy_type := pair.strategy_type
      exit_price := none }
  let s1 : BotState := { s with tradeIdCounter := s.tradeIdCounter + 1 }
  let finalize : Trade → List Event → BotState × List Event := fun t evts =>
    ({ s1 with
        balance := s1.balance - t.entry_price * t.quantity
        activePositions := s1.activePositions ++ [t] },
      evts ++ [.saveState, .positionsUpdated])
  if s1.tradingMode = .REAL_LIVE ∧ s1.hasApiClient then
    let orderEvt : Event :=
      .createOrder pair.symbol "BUY" "MARKET" (formatQuantity s1.symbolRules pair.symbol quantity)
    match orderOutcome with
    | .error _ => (s1, [orderEvt])
    | .ok res =>
      match res.fillPrices with
      | [] => (s1, [orderEvt])
      | fillPrice :: _ =>
        finalize { newTrade with entry_price := fillPrice, quantity := res.executedQty } [orderEvt]
  else
    finalize newTrade []

/-- The cooldown guard of `evaluateSignal`:
`recentlyLostSymbols.has(symbol) && Date.now() < recentlyLostSymbols.get(symbol)`. -/
def cooldownBlocked (m : List (String × ℚ)) (symbol : String) (now : ℚ) : Bool :=
  match mapGet m symbol with
  | some expiry => now < expiry
  | none => false

/-- JavaScript truthiness of the optional number `atr_15m`. -/
def jsTruthy (a : Option ℚ) : Bool :=
  match a with
  | none => false
  | some x => x ≠ 0

/-- Model of `evaluateSignal` (lines 61-95): the four early-return guards (score not
actionable, position count at `MAX_OPEN_POSITIONS`, symbol already open,
loss cooldown active), then sizing, stop placement, the
`riskPerUnit <= 0` abort, take-profit computation and `openPosition`. -/
def evaluateSignal (s : BotState) (pair : Pair) (now : ℚ)
    (orderOutcome : Except String OrderResult) : BotState × List Event :=
  if ¬ (pair.score = .STRONG_BUY ∨ pair.score = .IGNITION_DETECTED ∨
      pair.score = .MOMENTUM_BUY) then (s, [])
  else if s.settings.MAX_OPEN_POSITIONS ≤ s.activePositions.length then (s, [])
  else if s.activePositions.any (fun p => p.symbol = pair.symbol) then (s, [])
  else if cooldownBlocked s.recentlyLostSymbols pair.symbol now then (s, [])
  else
    let positionSizePct :=
      if s.settings.USE_DYNAMIC_POSITION_SIZING ∧ pair.score = .STRONG_BUY then
        s.settings.STRONG_BUY_POSITION_SIZE_PCT
      else s.settings.POSITION_SIZE_PCT
    let positionSizeUSD := s.balance * (positionSizePct / 100)
    let quantity := positionSizeUSD / pair.price
    let stopLossPrice :=
      if s.settings.USE_ATR_STOP_LOSS ∧ jsTruthy pair.atr_15m then
        pair.price - pair.atr_15m.getD 0 * s.settings.ATR_MULTIPLIER
      else
        pair.price * (1 - s.settings.STOP_LOSS_PCT / 100)
    let riskPerUnit := pair.price - stopLossPrice
    if riskPerUnit ≤ 0 then (s, [])
    else
      let takeProfitPrice := pair.price + riskPerUnit * s.settings.RISK_REWARD
      openPosition s pair quantity stopLossPrice takeProfitPrice orderOutcome

/-- Model of `processAnalyzedPair` (lines 20-43): drops everything while the bot is
paused; dispatches immediately-valid signals to `evaluateSignal`; queues a
`PENDING_CONFIRMATION` signal in the `pendingConfirmation` map when MTF
validation is on, else treats it as a `STRONG BUY`; ignores other scores. -/
def processAnalyzedPair (s : BotState) (pair : Pair) (now : ℚ)
    (orderOutcome : Except String OrderResult) : BotState × List Event :=
  if ¬ s.isRunning then (s, [])
  else
    match pair.score with
    | .MOMENTUM_BUY | .IGNITION_DETECTED => evaluateSignal s pair now orderOutcome
    | .PENDING_CONFIRMATION =>
      if s.settings.USE_MTF_VALIDATION then
        ({ s with pendingConfirmation :=
            mapSet s.pendingConfirmation pair.symbol ⟨pair, now⟩ }, [])
      else
        evaluateSignal s { pair with score := .STRONG_BUY } now orderOutcome
    | _ => (s, [])

/-- The resolution stage of `checkConfirmationsOn5mClose` (lines 45-59):
a symbol with no pending entry is a no-op; a pending entry is deleted
unconditionally, and the stored pair is promoted (returned, with score
`STRONG BUY`) exactly when `parseFloat(kline5m.c) > parseFloat(kline5m.o)`.
The promoted pair is what the method passes on to `evaluateSignal`
(see `checkConfirmationsOn5mClose` below). -/
def resolveConfirmation (s : BotState) (symbol : String) (kline5m : Kline) :
    BotState × Option Pair :=
  match mapGet s.pendingConfirmation symbol with
  | none => (s, none)
  | some entry =>
    let s1 : BotState :=
      { s with pendingConfirmation := mapErase s.pendingConfirmation symbol }
    if kline5m.c > kline5m.o then
      (s1, some { entry.pair with score := .STRONG_BUY })
    else
      (s1, none)

/-- Model of `checkConfirmationsOn5mClose` in full: resolve, then evaluate the
promoted signal if any. -/
def checkConfirmationsOn5mClose (s : BotState) (symbol : String) (kline5m : Kline)
    (now : ℚ) (orderOutcome : Except String OrderResult) : BotState × List Event :=
  match resolveConfirmation s symbol kline5m with
  | (s1, none) => (s1, [])
  | (s1, some pair) => evaluateSignal s1 pair now orderOutcome

/-- Model of `findIndex` followed by `splice(index, 1)` on `activePositions`: the first trade
with the given id together with the list without it. -/
def extractById : List Trade → ℕ → Option (Trade × List Trade)
  | [], _ => none
  | t :: ts, i =>
    if t.id = i then some (t, ts)
    else
      match extractById ts i with
      | none => none
      | some (u, us) => some (u, t :: us)

/-- Model of `closePosition` (lines 184-225): remove the position by id (silently a
no-op when absent), stamp exit price and `CLOSED` status, compute
`pnl = (exitPrice - entry_price) * quantity` and
`pnl_pct = pnl / (entry_price * quantity) * 100`, in `REAL_LIVE` mode place
the market sell (its failure is caught and only logged — the local close
proceeds regardless, so the outcome is not a parameter), credit
`balance += entry_price * quantity + pnl`, append to `tradeHistory`, and on
a negative pnl set the symbol's loss cooldown to
`Date.now() + LOSS_COOLDOWN_HOURS * 60 * 60 * 1000`.

`closedTradeOf` names the mutated trade object:
`closedTrade.exit_price = exitPrice`, `status = 'CLOSED'`,
`pnl = (exitPrice - entry_price) * quantity`,
`pnl_pct = (pnl / (entry_price * quantity)) * 100` (in `ℚ` a zero
denominator yields `0`; JavaScript would record `NaN` there — no theorem
below touches that degenerate case). -/
def closedTradeOf (t : Trade) (exitPrice : ℚ) : Trade :=
  let pnl := (exitPrice - t.entry_price) * t.quantity
  { t with
      exit_price := some exitPrice
      status := .CLOSED
      pnl := pnl
      pnl_pct := pnl / (t.entry_price * t.quantity) * 100 }

def closePosition (s : BotState) (positionId : ℕ) (exitPrice : ℚ) (now : ℚ) :
    BotState × List Event :=
  match extractById s.activePositions positionId with
  | none => (s, [])
  | some (t, rest) =>
    let pnl := (exitPrice - t.entry_price) * t.quantity
    let closedTrade : Trade := closedTradeOf t exitPrice
    let sellEvents : List Event :=
      if s.tradingMode = .REAL_LIVE ∧ s.hasApiClient then
        [.createOrder closedTrade.symbol "SELL" "MARKET"
          (formatQuantity s.symbolRules closedTrade.symbol closedTrade.quantity)]
      else []
    ({ s with
        activePositions := rest
        balance := s.balance + (closedTrade.entry_price * closedTrade.quantity + pnl)
        tradeHistory := s.tradeHistory ++ [closedTrade]
        recentlyLostSymbols :=
          if pnl < 0 then
            mapSet s.recentlyLostSymbols closedTrade.symbol
              (now + s.settings.LOSS_COOLDOWN_HOURS * 60 * 60 * 1000)
          else s.recentlyLostSymbols },
      sellEvents ++ [.saveState, .positionsUpdated])

/-- Write a mutated position object back into `activePositions` (the source
mutates the element in place through the reference `position`). -/
def updateById (l : List Trade) (i : ℕ) (t : Trade) : List Trade :=
  l.map (fun u => if u.id = i then t else u)

/-- The exit decision of `checkPosition` (lines 157-176), applied to the
position object `pos1` that already carries the freshly raised
`highest_price_since_entry`: either the Ignition trailing-stop branch
(ratchet the stop to `highest_price_since_entry * (1 - trailingStopPct)`
when that is higher, exit at the stop when the price is at or below it, no
take-profit check) or the plain branch (exit at `stop_loss` when
`currentPrice <= stop_loss`, else at `take_profit` when
`currentPrice >= take_profit`); it returns the (possibly stop-ratcheted)
position object and the exit price chosen, if any. -/
def checkPositionStep (settings : Settings) (pos1 : Trade) (currentPrice : ℚ) :
    Trade × Option ℚ :=
  if pos1.strategy_type = .IGNITION ∧ settings.USE_IGNITION_TRAILING_STOP then
    let trailingStopPct := settings.IGNITION_TRAILING_STOP_PCT / 100
    let newStopLoss := pos1.highest_price_since_entry * (1 - trailingStopPct)
    let pos2 : Trade :=
      if pos1.stop_loss < newStopLoss then { pos1 with stop_loss := newStopLoss }
      else pos1
    if currentPrice ≤ pos2.stop_loss then (pos2, some pos2.stop_loss)
    else (pos2, none)
  else
    if currentPrice ≤ pos1.stop_loss then (pos1, some pos1.stop_loss)
    else if pos1.take_profit ≤ currentPrice then (pos1, some pos1.take_profit)
    else (pos1, none)

/-- Line 155:
`position.highest_price_since_entry = Math.max(position.highest_price_since_entry, currentPrice)`. -/
def posAfterTick (pos : Trade) (currentPrice : ℚ) : Trade :=
  { pos with highest_price_since_entry := max pos.highest_price_since_entry currentPrice }

/-- Model of `checkPosition` (lines 151-182): no-op without a cached price (the
JavaScript guard `if (!currentPrice) return` also drops a cached price of
`0`); otherwise raise `highest_price_since_entry`, run the exit decision
`checkPositionStep`, write the mutated position object back and close
through `closePosition` at the chosen exit price, if any. -/
def checkPosition (s : BotState) (pos : Trade) (now : ℚ) : BotState × List Event :=
  match mapGet s.priceCache pos.symbol with
  | none => (s, [])
  | some currentPrice =>
    if currentPrice = 0 then (s, [])
    else
      let pos1 := posAfterTick pos currentPrice
      let step := checkPositionStep s.settings pos1 currentPrice
      let s1 : BotState :=
        { s with activePositions := updateById s.activePositions pos.id step.1 }
      match step.2 with
      | none => (s1, [])
      | some exitPrice => closePosition s1 step.1.id exitPrice now

/-- The per-tick evolution of the pair
(`highest_price_since_entry`, `stop_loss`) of an Ignition position under
the trailing-stop branch of `checkPosition`, used to state the lifetime
monotonicity of the stop. -/
def ignitionTick (trailingStopPct : ℚ) (hs : ℚ × ℚ) (price : ℚ) : ℚ × ℚ :=
  let h := max hs.1 price
  let newStopLoss := h * (1 - trailingStopPct)
  (h, if hs.2 < newStopLoss then newStopLoss else hs.2)

/-! ## Helper lemmas -/

theorem mapGet_mapSet_self {α : Type} (m : List (String × α)) (k : String) (v : α) :
    mapGet (mapSet m k v) k = some v := by
  induction m with
  | nil => simp [mapGet, mapSet, List.find?]
  | cons e rest ih =>
    by_cases he : e.1 = k
    · simp [mapSet, he, mapGet, List.find?]
    · simp only [mapSet, he, if_false]
      simpa [mapGet, List.find?, he] using ih

theorem mapGet_mapErase_self {α : Type} (m : List (String × α)) (k : String) :
    mapGet (mapErase m k) k = none := by
  induction m with
  | nil => simp [mapGet, mapErase]
  | cons e rest ih =>
    by_cases he : e.1 = k
    · simpa [mapErase, he] using ih
    · simpa [mapErase, mapGet, List.find?, he] using ih

theorem updateById_of_forall_ne (l : List Trade) (i : ℕ) (t : Trade)
    (h : ∀ u ∈ l, u.id ≠ i) : updateById l i t = l := by
  induction l with
  | nil => rfl
  | cons a as ih =>
    have ha : a.id ≠ i := h a (List.mem_cons_self a as)
    have has : ∀ u ∈ as, u.id ≠ i := fun u hu => h u (List.mem_cons_of_mem a hu)
    simp [updateById, ha, List.map] at ih ⊢
    exact ih has

/-- Replacing (by reference) the element of `l` whose id is `pos.id` by `t`
(of the same id) and then running `findIndex`/`splice` on that id yields
`t` and leaves exactly the other elements, provided ids are unique. -/
theorem extractById_updateById (l : List Trade) (pos t : Trade)
    (hmem : pos ∈ l) (hid : t.id = pos.id)
    (hnodup : (l.map (fun u => u.id)).Nodup) :
    ∃ rest, extractById (updateById l pos.id t) pos.id = some (t, rest) ∧
      ∀ u ∈ rest, u.id ≠ pos.id := by
  induction l with
  | nil => cases hmem
  | cons a as ih =>
    rw [List.map_cons, List.nodup_cons] at hnodup
    by_cases ha : a.id = pos.id
    · have hnotin : ∀ u ∈ as, u.id ≠ pos.id := by
        intro u hu hcontra
        exact hnodup.1 (ha ▸ hcontra ▸ List.mem_map_of_mem (fun u => u.id) hu)
      have hupd : updateById (a :: as) pos.id t = t :: as := by
        simp only [updateById, List.map_cons, if_pos ha]
        exact congrArg (t :: ·) (updateById_of_forall_ne as pos.id t hnotin)
      refine ⟨as, ?_, hnotin⟩
      rw [hupd]
      simp [extractById, hid]
    · have hmem' : pos ∈ as := by
        rcases List.mem_cons.mp hmem with h | h
        · exact absurd (congrArg Trade.id h.symm) ha
        · exact h
      obtain ⟨rest, hex, hrest⟩ := ih hmem' hnodup.2
      refine ⟨a :: rest, ?_, ?_⟩
      · have hupd : updateById (a :: as) pos.id t = a :: updateById as pos.id t := by
          simp only [updateById, List.map_cons, if_neg ha]
        rw [hupd]
        simp only [extractById, if_neg ha, hex]
      · intro u hu
        rcases List.mem_cons.mp hu with h | h
        · exact h ▸ ha
        · exact hrest u h

theorem ignitionTick_stop_le (pct : ℚ) (hs : ℚ × ℚ) (p : ℚ) :
    hs.2 ≤ (ignitionTick pct hs p).2 := by
  simp only [ignitionTick]
  split
  · exact le_of_lt (by assumption)
  · exact le_refl _

/-- Over any sequence of ticks, the Ignition trailing stop never decreases. -/
theorem ignitionFold_stop_mono (pct : ℚ) (prices : List ℚ) (hs : ℚ × ℚ) :
    hs.2 ≤ (prices.foldl (ignitionTick pct) hs).2 := by
  induction prices generalizing hs with
  | nil => exact le_refl _
  | cons p ps ih =>
    exact le_trans (ignitionTick_stop_le pct hs p) (ih (ignitionTick pct hs p))

theorem sortWidths_sorted (ws : List ℚ) : (sortWidths ws).Sorted (· ≤ ·) :=
  List.sorted_insertionSort (· ≤ ·) ws

theorem sortWidths_perm (ws : List ℚ) : (sortWidths ws).Perm ws :=
  List.perm_insertionSort (· ≤ ·) ws

theorem closePosition_components (s : BotState) (i : ℕ) (xp now : ℚ)
    (t : Trade) (rest : List Trade)
    (hex : extractById s.activePositions i = some (t, rest)) :
    (closePosition s i xp now).1.tradeHistory = s.tradeHistory ++ [closedTradeOf t xp] ∧
    (closePosition s i xp now).1.activePositions = rest ∧
    (closePosition s i xp now).1.recentlyLostSymbols =
      (if (xp - t.entry_price) * t.quantity < 0 then
        mapSet s.recentlyLostSymbols t.symbol
          (now + s.settings.LOSS_COOLDOWN_HOURS * 60 * 60 * 1000)
      else s.recentlyLostSymbols) := by
  unfold closePosition
  rw [hex]
  exact ⟨rfl, rfl, rfl⟩

theorem checkPosition_reduce (s : BotState) (pos : Trade) (now currentPrice : ℚ)
    (hprice : mapGet s.priceCache pos.symbol = some currentPrice)
    (hne : currentPrice ≠ 0) :
    checkPosition s pos now =
      (let step := checkPositionStep s.settings (posAfterTick pos currentPrice) currentPrice
      let s1 : BotState :=
        { s with activePositions := updateById s.activePositions pos.id step.1 }
      match step.2 with
      | none => (s1, [])
      | some exitPrice => closePosition s1 step.1.id exitPrice now) := by
  unfold checkPosition
  rw [hprice]
  simp only [if_neg hne]

theorem checkPositionStep_plain (settings : Settings) (pos1 : Trade) (p : ℚ)
    (h : ¬ (pos1.strategy_type = .IGNITION ∧ settings.USE_IGNITION_TRAILING_STOP)) :
    checkPositionStep settings pos1 p =
      (if p ≤ pos1.stop_loss then (pos1, some pos1.stop_loss)
      else if pos1.take_profit ≤ p then (pos1, some pos1.take_profit)
      else (pos1, none)) := by
  unfold checkPositionStep
  rw [if_neg h]

theorem checkPositionStep_ignition (settings : Settings) (pos1 : Trade) (p : ℚ)
    (h1 : pos1.strategy_type = .IGNITION)
    (h2 : settings.USE_IGNITION_TRAILING_STOP = true) :
    checkPositionStep settings pos1 p =
      (let newStopLoss :=
        pos1.highest_price_since_entry * (1 - settings.IGNITION_TRAILING_STOP_PCT / 100)
      let stopAfter := if pos1.stop_loss < newStopLoss then newStopLoss else pos1.stop_loss
      ({ pos1 with stop_loss := stopAfter },
        if p ≤ stopAfter then some stopAfter else none)) := by
  unfold checkPositionStep
  rw [if_pos ⟨h1, h2⟩]
  by_cases hlt : pos1.stop_loss <
      pos1.highest_price_since_entry * (1 - settings.IGNITION_TRAILING_STOP_PCT / 100)
  · simp only [if_pos hlt]
    split <;> rfl
  · simp only [if_neg hlt]
    split <;> rfl

/-! ## Concrete sample data used by witnesses and counterexamples -/

def sampleSettings : Settings :=
  { MAX_OPEN_POSITIONS := 5
    POSITION_SIZE_PCT := 2
    STRONG_BUY_POSITION_SIZE_PCT := 3
    USE_DYNAMIC_POSITION_SIZING := false
    USE_ATR_STOP_LOSS := false
    ATR_MULTIPLIER := 3 / 2
    STOP_LOSS_PCT := 2
    RISK_REWARD := 4
    LOSS_COOLDOWN_HOURS := 4
    USE_IGNITION_TRAILING_STOP := true
    IGNITION_TRAILING_STOP_PCT := 3 / 2
    USE_MTF_VALIDATION := true }

def sampleState : BotState :=
  { isRunning := true
    tradingMode := .VIRTUAL
    balance := 10000
    activePositions := []
    tradeHistory := []
    tradeIdCounter := 1
    recentlyLostSymbols := []
    pendingConfirmation := []
    priceCache := []
    settings := sampleSettings
    hasApiClient := false
    symbolRules := [] }

def samplePair : Pair :=
  { symbol := "XUSDT", score := .STRONG_BUY, atr_15m := none, price := 100,
    strategy_type := .PRECISION }

def liveState : BotState :=
  { sampleState with tradingMode := .REAL_LIVE, hasApiClient := true }

def pausedState : BotState :=
  { sampleState with isRunning := false }

def constKline : Kline := ⟨1, 1, 1, 1, 1⟩

def dummyPair : Pair :=
  { symbol := "XUSDT", score := .HOLD, atr_15m := none, price := 0,
    strategy_type := .PRECISION }

/-- A Bollinger record whose width percentage is exactly `w`
(and whose middle band is nonzero). -/
def bbOfWidth (w : ℚ) : BBRec := ⟨w, 100, 0⟩

/-! ## The claims -/

/-- C1: for every 15-minute kline window of at least 21 candles,
`analyzeTimeframe` raises an error before returning (its ADX call
references the undefined variables `high` and `low` instead of the locals
`highs`/`lows`); consequently `runFullAnalysis` and `hydrateSymbol` catch
the error and return `null` for every symbol — whatever the Bollinger
library (`bbCalc`) and the unreached remainder of the pipeline (`rest`)
would compute — so the pipeline never produces a classified signal. -/
theorem c1_analyze15m_always_throws :
    (∀ bbCalc klines, 21 ≤ klines.length →
      analyzeTimeframe15m bbCalc klines = .error .referenceError) ∧
    (∀ bbCalc rest klines1m klines5m klines15m klines1h klines4h,
      runFullAnalysis bbCalc rest klines1m klines5m klines15m klines1h klines4h = none) ∧
    (∀ bbCalc rest klines15m, hydrateSymbol bbCalc rest klines15m = none) := by
  have key : ∀ (bbCalc : List ℚ → List BBRec) (klines : List Kline), 21 ≤ klines.length →
      analyzeTimeframe15m bbCalc klines = .error .referenceError := by
    intro bbCalc klines h
    simp [analyzeTimeframe15m, Nat.not_lt.mpr h]
  refine ⟨key, ?_, ?_⟩
  · intro bbCalc rest k1m k5m k15m k1h k4h
    by_cases hg : k15m.length < 50 ∨ k1h.length < 21 ∨ k4h.length < 51 ∨ k1m.length < 21
    · simp [runFullAnalysis, hg]
    · have h21 : 21 ≤ k15m.length := by
        push_neg at hg
        omega
      simp [runFullAnalysis, hg, key bbCalc k15m h21]
  · intro bbCalc rest k15m
    by_cases hg : k15m.length < 50
    · simp [hydrateSymbol, hg]
    · have h21 : 21 ≤ k15m.length := by omega
      simp [hydrateSymbol, hg, key bbCalc k15m h21]

theorem c1_witness :
    analyzeTimeframe15m (fun _ => []) (List.replicate 21 constKline) =
      .error .referenceError ∧
    runFullAnalysis (fun _ => []) (fun _ => dummyPair)
      (List.replicate 21 constKline) [] (List.replicate 50 constKline)
      (List.replicate 21 constKline) (List.replicate 51 constKline) = none ∧
    hydrateSymbol (fun _ => []) (fun _ => dummyPair) (List.replicate 50 constKline) = none :=
  ⟨c1_analyze15m_always_throws.1 _ _ (by simp),
    c1_analyze15m_always_throws.2.1 _ _ _ _ _ _ _,
    c1_analyze15m_always_throws.2.2 _ _ _⟩

/-- C8 counterexample: a 15m window whose current Bollinger width equals
the 25th-percentile width exactly is NOT flagged as a squeeze by the code
(the comparison on line 114 is the strict `lastWidth < squeezeThreshold`),
while the claim says a width at (`≤`) the percentile is flagged.  Here the
widths are `[4, 1, 2, 3, 8, 2, 9, 2]`, the sorted list is
`[1, 2, 2, 2, 3, 4, 8, 9]`, the threshold index is `⌊8 * 0.25⌋ = 2`, so the
threshold is `2`; the current (last) width is also `2 ≤ 2`, yet the flag is
`false`. -/
theorem c8_counterexample :
    isInSqueeze15m [bbOfWidth 4, bbOfWidth 1, bbOfWidth 2, bbOfWidth 3,
      bbOfWidth 8, bbOfWidth 2, bbOfWidth 9, bbOfWidth 2] = false ∧
    (bbWidthPcts [bbOfWidth 4, bbOfWidth 1, bbOfWidth 2, bbOfWidth 3,
      bbOfWidth 8, bbOfWidth 2, bbOfWidth 9, bbOfWidth 2]).getLast? = some 2 ∧
    (sortWidths (bbWidthPcts [bbOfWidth 4, bbOfWidth 1, bbOfWidth 2, bbOfWidth 3,
      bbOfWidth 8, bbOfWidth 2, bbOfWidth 9, bbOfWidth 2])).get?
      ((bbWidthPcts [bbOfWidth 4, bbOfWidth 1, bbOfWidth 2, bbOfWidth 3,
        bbOfWidth 8, bbOfWidth 2, bbOfWidth 9, bbOfWidth 2]).length / 4) = some 2 ∧
    ((2 : ℚ) ≤ 2) := by
  refine ⟨?_, ?_, ?_, le_refl 2⟩ <;>
    norm_num [isInSqueeze15m, bbOfWidth, bbWidthPcts, widthIsNaN, widthPct,
      sortWidths, List.insertionSort, List.orderedInsert]

/-- C8 amended: the squeeze flag is set exactly when the current width is
STRICTLY below the 25th-percentile value (the element at index
`⌊n * 0.25⌋` of the ascending sort of the window's width distribution); a
current width exactly equal to that value is not flagged. -/
theorem c8_squeeze_iff_strictly_below (bb : List BBRec) (sorted : List ℚ)
    (hperm : sorted.Perm (bbWidthPcts bb)) (hsorted : sorted.Sorted (· ≤ ·))
    (lastWidth squeezeThreshold : ℚ)
    (hlast : (bbWidthPcts bb).getLast? = some lastWidth)
    (hthr : sorted.get? ((bbWidthPcts bb).length / 4) = some squeezeThreshold) :
    (isInSqueeze15m bb = true ↔ lastWidth < squeezeThreshold) := by
  have hkey : sortWidths (bbWidthPcts bb) = sorted :=
    List.eq_of_perm_of_sorted ((sortWidths_perm _).trans hperm.symm)
      (sortWidths_sorted _) hsorted
  unfold isInSqueeze15m
  dsimp only
  rw [hlast, hkey, hthr]
  simp

theorem c8_witness :
    isInSqueeze15m [bbOfWidth 1, bbOfWidth 2, bbOfWidth 3, bbOfWidth 4] = true ↔
      (4 : ℚ) < 2 := by
  have hws : bbWidthPcts [bbOfWidth 1, bbOfWidth 2, bbOfWidth 3, bbOfWidth 4] =
      [1, 2, 3, 4] := by
    norm_num [bbWidthPcts, bbOfWidth, widthIsNaN, widthPct]
  refine c8_squeeze_iff_strictly_below _ [1, 2, 3, 4] (by rw [hws]) ?_ 4 2 ?_ ?_
  · simp [List.Sorted, List.pairwise_cons]
    norm_num
  · rw [hws]
    rfl
  · rw [hws]
    rfl

/-- C9: with a known step size, `formatQuantity` never rounds up — the
returned quantity is at most the raw quantity — via `Math.floor` to an
integer when the step size is `1` (exponent `0`) and otherwise truncation
at `max 0 (-log10 stepSize)` decimals; with no known rule the quantity is
rounded (to nearest) at 8 decimal places. -/
theorem c9_formatQuantity_never_rounds_up (rules : List (String × ℤ)) (symbol : String)
    (e : ℤ) (quantity : ℚ) (hrule : mapGet rules symbol = some e) (hq : 0 ≤ quantity) :
    formatQuantity rules symbol quantity ≤ quantity ∧
    (e = 0 → formatQuantity rules symbol quantity = ((⌊quantity⌋ : ℤ) : ℚ)) ∧
    (¬ e = 0 → formatQuantity rules symbol quantity =
      ((⌊quantity * 10 ^ (max 0 (-e)).toNat⌋ : ℤ) : ℚ) / 10 ^ (max 0 (-e)).toNat) ∧
    (∀ symbol2, mapGet rules symbol2 = none →
      formatQuantity rules symbol2 quantity =
        ((⌊quantity * 10 ^ 8 + 1 / 2⌋ : ℤ) : ℚ) / 10 ^ 8) := by
  refine ⟨?_, ?_, ?_, ?_⟩
  · unfold formatQuantity
    rw [hrule]
    dsimp only
    by_cases he : e = 0
    · rw [if_pos he]
      exact Int.floor_le quantity
    · rw [if_neg he]
      have hf : (0 : ℚ) < 10 ^ (max 0 (-e)).toNat := by positivity
      rw [div_le_iff₀ hf]
      exact Int.floor_le _
  · intro he
    unfold formatQuantity
    rw [hrule]
    dsimp only
    rw [if_pos he]
  · intro he
    unfold formatQuantity
    rw [hrule]
    dsimp only
    rw [if_neg he]
  · intro symbol2 hnone
    unfold formatQuantity
    rw [hnone]

theorem c9_witness :
    formatQuantity [("XUSDT", -3)] "XUSDT" (7 / 3) ≤ 7 / 3 ∧
    formatQuantity [("XUSDT", -3)] "XUSDT" (7 / 3) = 2333 / 1000 :=
  ⟨(c9_formatQuantity_never_rounds_up [("XUSDT", -3)] "XUSDT" (-3) (7 / 3)
      (by simp [mapGet, List.find?]) (by norm_num)).1,
    by
      have h3 : Int.toNat 3 = 3 := rfl
      norm_num [formatQuantity, mapGet, List.find?, h3]⟩

/-- C7: resolving a 5-minute close for a symbol that is not pending is a
no-op (state unchanged, no signal); for a pending symbol the entry is
removed unconditionally — afterwards the symbol is never pending, in
either case — and the stored candidate is promoted (with score
`STRONG BUY`, to be fed to `evaluateSignal`) if and only if the candle
closed strictly above its open. -/
theorem c7_confirmation_resolution (s : BotState) (symbol : String) (kline5m : Kline) :
    (mapGet s.pendingConfirmation symbol = none →
      resolveConfirmation s symbol kline5m = (s, none)) ∧
    mapGet (resolveConfirmation s symbol kline5m).1.pendingConfirmation symbol = none ∧
    (∀ entry, mapGet s.pendingConfirmation symbol = some entry →
      (resolveConfirmation s symbol kline5m).1 =
        { s with pendingConfirmation := mapErase s.pendingConfirmation symbol } ∧
      ((resolveConfirmation s symbol kline5m).2 =
        if kline5m.c > kline5m.o then some { entry.pair with score := .STRONG_BUY }
        else none)) := by
  refine ⟨?_, ?_, ?_⟩
  · intro hnone
    unfold resolveConfirmation
    rw [hnone]
  · unfold resolveConfirmation
    cases hcase : mapGet s.pendingConfirmation symbol with
    | none => exact hcase
    | some entry =>
      by_cases hc : kline5m.c > kline5m.o
      · simp only [if_pos hc]
        exact mapGet_mapErase_self s.pendingConfirmation symbol
      · simp only [if_neg hc]
        exact mapGet_mapErase_self s.pendingConfirmation symbol
  · intro entry hsome
    unfold resolveConfirmation
    rw [hsome]
    dsimp only
    by_cases hc : kline5m.c > kline5m.o
    · rw [if_pos hc, if_pos hc]
      exact ⟨rfl, rfl⟩
    · rw [if_neg hc, if_neg hc]
      exact ⟨rfl, rfl⟩

def pendingState : BotState :=
  { sampleState with pendingConfirmation :=
      [("XUSDT", ⟨{ samplePair with score := .PENDING_CONFIRMATION }, 0⟩)] }

theorem c7_witness :
    (resolveConfirmation sampleState "XUSDT" ⟨100, 103, 99, 102, 5⟩ = (sampleState, none)) ∧
    mapGet (resolveConfirmation pendingState "XUSDT" ⟨100, 103, 99, 102, 5⟩).1.pendingConfirmation
      "XUSDT" = none ∧
    (resolveConfirmation pendingState "XUSDT" ⟨100, 103, 99, 102, 5⟩).2 =
      some { samplePair with score := .STRONG_BUY } := by
  refine ⟨(c7_confirmation_resolution sampleState "XUSDT" ⟨100, 103, 99, 102, 5⟩).1
      (by simp [sampleState, mapGet]),
    (c7_confirmation_resolution pendingState "XUSDT" ⟨100, 103, 99, 102, 5⟩).2.1, ?_⟩
  have h := ((c7_confirmation_resolution pendingState "XUSDT" ⟨100, 103, 99, 102, 5⟩).2.2
    ⟨{ samplePair with score := .PENDING_CONFIRMATION }, 0⟩
    (by simp +decide [pendingState, mapGet, List.find?])).2
  rw [h]
  norm_num

/-- C4: when the external order placement of `openPosition` fails in
`REAL_LIVE` mode, the open is aborted with no partial trading state: the
balance is not debited, `activePositions` and `tradeHistory` are
unchanged, nothing is persisted and no `POSITIONS_UPDATED` notification is
emitted (the only effect is the failed order request itself).  The
`tradeIdCounter`, which is not part of the claim's enumeration, does
advance — that frame effect is claim C10. -/
theorem c4_open_failure_atomic (s : BotState) (pair : Pair)
    (quantity stopLoss takeProfit : ℚ) (err : String)
    (hmode : s.tradingMode = .REAL_LIVE) (hapi : s.hasApiClient = true) :
    (openPosition s pair quantity stopLoss takeProfit (.error err)).1.balance = s.balance ∧
    (openPosition s pair quantity stopLoss takeProfit (.error err)).1.activePositions =
      s.activePositions ∧
    (openPosition s pair quantity stopLoss takeProfit (.error err)).1.tradeHistory =
      s.tradeHistory ∧
    Event.positionsUpdated ∉ (openPosition s pair quantity stopLoss takeProfit (.error err)).2 ∧
    Event.saveState ∉ (openPosition s pair quantity stopLoss takeProfit (.error err)).2 := by
  unfold openPosition
  simp [hmode, hapi]

theorem c4_witness :
    (openPosition liveState samplePair 2 98 108 (.error "rejected")).1.balance =
      liveState.balance ∧
    (openPosition liveState samplePair 2 98 108 (.error "rejected")).1.activePositions =
      liveState.activePositions ∧
    (openPosition liveState samplePair 2 98 108 (.error "rejected")).1.tradeHistory =
      liveState.tradeHistory ∧
    Event.positionsUpdated ∉ (openPosition liveState samplePair 2 98 108 (.error "rejected")).2 ∧
    Event.saveState ∉ (openPosition liveState samplePair 2 98 108 (.error "rejected")).2 :=
  c4_open_failure_atomic liveState samplePair 2 98 108 "rejected" rfl rfl

/-- C10: a failed `REAL_LIVE` open nevertheless consumes a position id —
`newTrade` is built with `this.botState.tradeIdCounter++` before the order
is attempted, so after the abort the counter has advanced by one even
though balance, `activePositions` and `tradeHistory` are unchanged (hence
ids of successfully opened positions need not be consecutive). -/
theorem c10_failed_open_consumes_id (s : BotState) (pair : Pair)
    (quantity stopLoss takeProfit : ℚ) (err : String)
    (hmode : s.tradingMode = .REAL_LIVE) (hapi : s.hasApiClient = true) :
    (openPosition s pair quantity stopLoss takeProfit (.error err)).1.tradeIdCounter =
      s.tradeIdCounter + 1 ∧
    (openPosition s pair quantity stopLoss takeProfit (.error err)).1.balance = s.balance ∧
    (openPosition s pair quantity stopLoss takeProfit (.error err)).1.activePositions =
      s.activePositions ∧
    (openPosition s pair quantity stopLoss takeProfit (.error err)).1.tradeHistory =
      s.tradeHistory := by
  unfold openPosition
  simp [hmode, hapi]

theorem c10_witness :
    (openPosition liveState samplePair 2 98 108 (.error "down")).1.tradeIdCounter =
      liveState.tradeIdCounter + 1 ∧
    (openPosition liveState samplePair 2 98 108 (.error "down")).1.balance =
      liveState.balance ∧
    (openPosition liveState samplePair 2 98 108 (.error "down")).1.activePositions =
      liveState.activePositions ∧
    (openPosition liveState samplePair 2 98 108 (.error "down")).1.tradeHistory =
      liveState.tradeHistory :=
  c10_failed_open_consumes_id liveState samplePair 2 98 108 "down" rfl rfl

/-- C3 counterexample: the claim says `evaluateSignal` rejects an
actionable signal when the bot is administratively paused, with no state
mutation and no order/broadcast.  In the code the `isRunning` check lives
only in `processAnalyzedPair`; `evaluateSignal` itself (also called
directly on kline closes and on 5m confirmations) does not consult it:
with `isRunning = false` and an otherwise clean state it still sizes the
trade, opens a position and emits effects. -/
theorem c3_counterexample :
    pausedState.isRunning = false ∧
    (evaluateSignal pausedState samplePair 0 (.error "ignored")).1.activePositions.length = 1 ∧
    (evaluateSignal pausedState samplePair 0 (.error "ignored")).2 ≠ [] := by
  refine ⟨rfl, ?_, ?_⟩
  · norm_num [evaluateSignal, openPosition, cooldownBlocked, mapGet, jsTruthy,
      pausedState, sampleState, samplePair, sampleSettings]
  · norm_num [evaluateSignal, openPosition, cooldownBlocked, mapGet, jsTruthy,
      pausedState, sampleState, samplePair, sampleSettings]
    simp

/-- C3 amended: the administrative-pause rejection is enforced by
`processAnalyzedPair` (the signal dispatch entry point), not by
`evaluateSignal`; `evaluateSignal` itself rejects — returning the state
untouched and performing no sizing, no order call and no broadcast — when
the open-position count is at `MAX_OPEN_POSITIONS`, when the symbol
already has an open position, or when the symbol's loss-cooldown expiry
lies in the future. -/
theorem c3_entry_gates (s : BotState) (pair : Pair) (now : ℚ)
    (orderOutcome : Except String OrderResult) :
    (s.isRunning = false → processAnalyzedPair s pair now orderOutcome = (s, [])) ∧
    ((s.settings.MAX_OPEN_POSITIONS ≤ s.activePositions.length ∨
      s.activePositions.any (fun p => p.symbol = pair.symbol) = true ∨
      cooldownBlocked s.recentlyLostSymbols pair.symbol now = true) →
      evaluateSignal s pair now orderOutcome = (s, [])) := by
  constructor
  · intro h
    simp [processAnalyzedPair, h]
  · intro h
    unfold evaluateSignal
    by_cases h1 : ¬ (pair.score = .STRONG_BUY ∨ pair.score = .IGNITION_DETECTED ∨
        pair.score = .MOMENTUM_BUY)
    · rw [if_pos h1]
    · rw [if_neg h1]
      by_cases h2 : s.settings.MAX_OPEN_POSITIONS ≤ s.activePositions.length
      · rw [if_pos h2]
      · rw [if_neg h2]
        by_cases h3 : s.activePositions.any (fun p => p.symbol = pair.symbol) = true
        · rw [if_pos h3]
        · rw [if_neg h3]
          by_cases h4 : cooldownBlocked s.recentlyLostSymbols pair.symbol now = true
          · rw [if_pos h4]
          · exfalso
            rcases h with h | h | h
            · exact h2 h
            · exact h3 h
            · exact h4 h

def fullState : BotState :=
  { sampleState with settings := { sampleSettings with MAX_OPEN_POSITIONS := 0 } }

theorem c3_witness :
    processAnalyzedPair pausedState samplePair 0 (.error "ignored") = (pausedState, []) ∧
    evaluateSignal fullState samplePair 0 (.error "ignored") = (fullState, []) :=
  ⟨(c3_entry_gates pausedState samplePair 0 (.error "ignored")).1 rfl,
    (c3_entry_gates fullState samplePair 0 (.error "ignored")).2
      (Or.inl (by norm_num [fullState, sampleState, sampleSettings]))⟩

/-- C2 counterexample: open a position in `REAL_LIVE` mode where the
executed fill price (110) differs from the signal price (100), then close
it at 120.  The recorded trade has `average_entry_price = 100`,
`total_cost_usd = 100`, `quantity = 1`, but `closePosition` computes
`pnl = (120 - 110) * 1 = 10` from the overwritten `entry_price`, while the
claim's formula `(exit_price - average_entry_price) * quantity` gives 20;
likewise `pnl_pct = 10 / 110 * 100 = 100/11`, while the claim's
`pnl / total_cost_usd * 100` gives 10. -/
theorem c2_counterexample :
    ((closePosition (openPosition liveState samplePair 1 98 108
        (.ok ⟨[110], 1⟩)).1 1 120 0).1.tradeHistory.map
      (fun t => (t.status, t.exit_price, t.average_entry_price, t.total_cost_usd,
        t.quantity, t.pnl, t.pnl_pct))) =
      [(.CLOSED, some 120, 100, 100, 1, 10, 100 / 11)] ∧
    ((closePosition (openPosition liveState samplePair 1 98 108
        (.ok ⟨[110], 1⟩)).1 1 120 0).1.tradeHistory.map
      (fun t => ((t.exit_price.getD 0 - t.average_entry_price) * t.quantity,
        t.pnl / t.total_cost_usd * 100))) = [(20, 10)] ∧
    ((10 : ℚ) ≠ 20) ∧ ((100 / 11 : ℚ) ≠ 10) := by
  refine ⟨?_, ?_, by norm_num, by norm_num⟩ <;>
    norm_num [closePosition, openPosition, extractById, closedTradeOf, formatQuantity,
      mapGet, liveState, sampleState, samplePair, sampleSettings]

/-- C2 amended: for every trade that reaches `CLOSED` status via
`closePosition`, the recorded `pnl` equals
`(exit_price − entry_price) × quantity` and the recorded `pnl_pct` equals
`pnl / (entry_price × quantity) × 100`, in terms of the trade's own
recorded fields; these agree with the claim's
`(exit_price − average_entry_price) × quantity` and
`pnl / total_cost_usd × 100` exactly when `average_entry_price =
entry_price` and `total_cost_usd = entry_price × quantity`, which holds
for every open that was not re-priced by a `REAL_LIVE` fill. -/
theorem c2_close_pnl_formula (s : BotState) (positionId : ℕ) (exitPrice now : ℚ)
    (t : Trade)
    (hmem : t ∈ (closePosition s positionId exitPrice now).1.tradeHistory)
    (hnew : t ∉ s.tradeHistory) :
    t.status = .CLOSED ∧ t.exit_price = some exitPrice ∧
    t.pnl = (exitPrice - t.entry_price) * t.quantity ∧
    t.pnl_pct = t.pnl / (t.entry_price * t.quantity) * 100 ∧
    (t.average_entry_price = t.entry_price →
      t.total_cost_usd = t.entry_price * t.quantity →
      t.pnl = (exitPrice - t.average_entry_price) * t.quantity ∧
      t.pnl_pct = t.pnl / t.total_cost_usd * 100) := by
  unfold closePosition at hmem
  cases hex : extractById s.activePositions positionId with
  | none =>
    rw [hex] at hmem
    exact absurd hmem hnew
  | some pr =>
    obtain ⟨u, rest⟩ := pr
    rw [hex] at hmem
    dsimp only at hmem
    rcases List.mem_append.mp hmem with hold | hsingle
    · exact absurd hold hnew
    · have ht : t = closedTradeOf u exitPrice := List.mem_singleton.mp hsingle
      subst ht
      refine ⟨rfl, rfl, rfl, rfl, ?_⟩
      intro havg hcost
      constructor
      · rw [havg]
        rfl
      · rw [hcost]
        rfl

def samplePosition : Trade :=
  { id := 1
    mode := .VIRTUAL
    symbol := "XUSDT"
    side := "BUY"
    entry_price := 100
    average_entry_price := 100
    quantity := 2
    target_quantity := 2
    stop_loss := 98
    take_profit := 106
    status := .FILLED
    pnl := 0
    pnl_pct := 0
    entry_snapshot := samplePair
    highest_price_since_entry := 100
    total_cost_usd := 200
    strategy_type := .PRECISION
    exit_price := none }

def posState : BotState :=
  { sampleState with
      activePositions := [samplePosition]
      priceCache := [("XUSDT", 98)] }

theorem c2_witness :
    (closedTradeOf samplePosition 98).status = .CLOSED ∧
    (closedTradeOf samplePosition 98).exit_price = some 98 ∧
    (closedTradeOf samplePosition 98).pnl =
      (98 - (closedTradeOf samplePosition 98).entry_price) *
        (closedTradeOf samplePosition 98).quantity ∧
    (closedTradeOf samplePosition 98).pnl_pct =
      (closedTradeOf samplePosition 98).pnl /
        ((closedTradeOf samplePosition 98).entry_price *
          (closedTradeOf samplePosition 98).quantity) * 100 ∧
    ((closedTradeOf samplePosition 98).average_entry_price =
        (closedTradeOf samplePosition 98).entry_price →
      (closedTradeOf samplePosition 98).total_cost_usd =
        (closedTradeOf samplePosition 98).entry_price *
          (closedTradeOf samplePosition 98).quantity →
      (closedTradeOf samplePosition 98).pnl =
        (98 - (closedTradeOf samplePosition 98).average_entry_price) *
          (closedTradeOf samplePosition 98).quantity ∧
      (closedTradeOf samplePosition 98).pnl_pct =
        (closedTradeOf samplePosition 98).pnl /
          (closedTradeOf samplePosition 98).total_cost_usd * 100) :=
  c2_close_pnl_formula posState 1 98 0 (closedTradeOf samplePosition 98)
    (by simp [closePosition, extractById, closedTradeOf, posState, sampleState,
      samplePosition])
    (by simp [posState, sampleState])

/-- C5: for an open non-Ignition position and a price tick (a positive
cached price; a price of `0` is indistinguishable from a cache miss under
the `if (!currentPrice) return` guard): at or below the stop the position
closes with `exit_price` equal to the stop price, not the tick price;
otherwise at or above the target it closes with `exit_price` equal to the
target price; and whenever the closed trade's pnl is negative the symbol's
cooldown is set to `now + LOSS_COOLDOWN_HOURS` hours. -/
theorem c5_plain_exit_rules (s : BotState) (pos : Trade) (now currentPrice : ℚ)
    (hprice : mapGet s.priceCache pos.symbol = some currentPrice)
    (hpos : 0 < currentPrice)
    (hstrat : pos.strategy_type ≠ .IGNITION)
    (hmem : pos ∈ s.activePositions)
    (hnodup : (s.activePositions.map (fun t => t.id)).Nodup) :
    (currentPrice ≤ pos.stop_loss →
      ∃ closedTrade,
        (checkPosition s pos now).1.tradeHistory = s.tradeHistory ++ [closedTrade] ∧
        closedTrade.exit_price = some pos.stop_loss ∧
        closedTrade.status = .CLOSED ∧
        (∀ u ∈ (checkPosition s pos now).1.activePositions, u.id ≠ pos.id) ∧
        (closedTrade.pnl < 0 →
          mapGet (checkPosition s pos now).1.recentlyLostSymbols pos.symbol =
            some (now + s.settings.LOSS_COOLDOWN_HOURS * 60 * 60 * 1000))) ∧
    (pos.stop_loss < currentPrice → pos.take_profit ≤ currentPrice →
      ∃ closedTrade,
        (checkPosition s pos now).1.tradeHistory = s.tradeHistory ++ [closedTrade] ∧
        closedTrade.exit_price = some pos.take_profit ∧
        closedTrade.status = .CLOSED ∧
        (∀ u ∈ (checkPosition s pos now).1.activePositions, u.id ≠ pos.id) ∧
        (closedTrade.pnl < 0 →
          mapGet (checkPosition s pos now).1.recentlyLostSymbols pos.symbol =
            some (now + s.settings.LOSS_COOLDOWN_HOURS * 60 * 60 * 1000))) := by
  have hne : currentPrice ≠ 0 := ne_of_gt hpos
  have hred := checkPosition_reduce s pos now currentPrice hprice hne
  have hcond : ¬ ((posAfterTick pos currentPrice).strategy_type = .IGNITION ∧
      s.settings.USE_IGNITION_TRAILING_STOP) := fun hc => hstrat hc.1
  have hstep := checkPositionStep_plain s.settings (posAfterTick pos currentPrice)
    currentPrice hcond
  rw [hstep] at hred
  constructor
  · intro hstop
    have hstop1 : currentPrice ≤ (posAfterTick pos currentPrice).stop_loss := hstop
    rw [if_pos hstop1] at hred
    dsimp only at hred
    obtain ⟨rest, hex, hrest⟩ :=
      extractById_updateById s.activePositions pos (posAfterTick pos currentPrice)
        hmem rfl hnodup
    have hcomp := closePosition_components
      { s with activePositions :=
          updateById s.activePositions pos.id (posAfterTick pos currentPrice) }
      (posAfterTick pos currentPrice).id (posAfterTick pos currentPrice).stop_loss now
      (posAfterTick pos currentPrice) rest hex
    refine ⟨closedTradeOf (posAfterTick pos currentPrice)
      (posAfterTick pos currentPrice).stop_loss, ?_, rfl, rfl, ?_, ?_⟩
    · rw [hred]
      exact hcomp.1
    · intro u hu
      rw [hred, hcomp.2.1] at hu
      exact hrest u hu
    · intro hpnl
      have hpnl' : ((posAfterTick pos currentPrice).stop_loss -
          (posAfterTick pos currentPrice).entry_price) *
          (posAfterTick pos currentPrice).quantity < 0 := hpnl
      rw [hred, hcomp.2.2, if_pos hpnl']
      exact mapGet_mapSet_self _ _ _
  · intro hstoplt htp
    have hstop1 : ¬ currentPrice ≤ (posAfterTick pos currentPrice).stop_loss :=
      not_le.mpr hstoplt
    have htp1 : (posAfterTick pos currentPrice).take_profit ≤ currentPrice := htp
    rw [if_neg hstop1, if_pos htp1] at hred
    dsimp only at hred
    obtain ⟨rest, hex, hrest⟩ :=
      extractById_updateById s.activePositions pos (posAfterTick pos currentPrice)
        hmem rfl hnodup
    have hcomp := closePosition_components
      { s with activePositions :=
          updateById s.activePositions pos.id (posAfterTick pos currentPrice) }
      (posAfterTick pos currentPrice).id (posAfterTick pos currentPrice).take_profit now
      (posAfterTick pos currentPrice) rest hex
    refine ⟨closedTradeOf (posAfterTick pos currentPrice)
      (posAfterTick pos currentPrice).take_profit, ?_, rfl, rfl, ?_, ?_⟩
    · rw [hred]
      exact hcomp.1
    · intro u hu
      rw [hred, hcomp.2.1] at hu
      exact hrest u hu
    · intro hpnl
      have hpnl' : ((posAfterTick pos currentPrice).take_profit -
          (posAfterTick pos currentPrice).entry_price) *
          (posAfterTick pos currentPrice).quantity < 0 := hpnl
      rw [hred, hcomp.2.2, if_pos hpnl']
      exact mapGet_mapSet_self _ _ _

theorem c5_witness :
    ∃ closedTrade,
      (checkPosition posState samplePosition 0).1.tradeHistory =
        posState.tradeHistory ++ [closedTrade] ∧
      closedTrade.exit_price = some samplePosition.stop_loss ∧
      closedTrade.status = .CLOSED ∧
      (∀ u ∈ (checkPosition posState samplePosition 0).1.activePositions,
        u.id ≠ samplePosition.id) ∧
      (closedTrade.pnl < 0 →
        mapGet (checkPosition posState samplePosition 0).1.recentlyLostSymbols
          samplePosition.symbol =
          some (0 + posState.settings.LOSS_COOLDOWN_HOURS * 60 * 60 * 1000)) :=
  (c5_plain_exit_rules posState samplePosition 0 98
    (by simp +decide [posState, sampleState, samplePosition, mapGet, List.find?])
    (by norm_num)
    (by decide)
    (by simp [posState, sampleState])
    (by simp [posState, sampleState])).1
    (by norm_num [samplePosition])

/-- Reduction of `checkPosition` on an Ignition position with the trailing
stop enabled: the position's `(highest_price_since_entry, stop_loss)` pair
evolves by `ignitionTick`, and the position exits exactly when the tick
price is at or below the ratcheted stop — the take-profit field is never
consulted. -/
theorem checkPosition_ignition_reduce (s : BotState) (pos : Trade) (now currentPrice : ℚ)
    (hprice : mapGet s.priceCache pos.symbol = some currentPrice)
    (hne : currentPrice ≠ 0)
    (hstrat : pos.strategy_type = .IGNITION)
    (htrail : s.settings.USE_IGNITION_TRAILING_STOP = true) :
    checkPosition s pos now =
      (let hs := ignitionTick (s.settings.IGNITION_TRAILING_STOP_PCT / 100)
          (pos.highest_price_since_entry, pos.stop_loss) currentPrice
      let pos2 : Trade :=
        { pos with highest_price_since_entry := hs.1, stop_loss := hs.2 }
      let s1 : BotState :=
        { s with activePositions := updateById s.activePositions pos.id pos2 }
      if currentPrice ≤ hs.2 then closePosition s1 pos2.id hs.2 now else (s1, [])) := by
  rw [checkPosition_reduce s pos now currentPrice hprice hne]
  rw [checkPositionStep_ignition s.settings (posAfterTick pos currentPrice) currentPrice
    hstrat htrail]
  dsimp only
  by_cases hc : currentPrice ≤ (ignitionTick (s.settings.IGNITION_TRAILING_STOP_PCT / 100)
      (pos.highest_price_since_entry, pos.stop_loss) currentPrice).2
  · have hc' : currentPrice ≤
        (if (posAfterTick pos currentPrice).stop_loss <
            (posAfterTick pos currentPrice).highest_price_since_entry *
              (1 - s.settings.IGNITION_TRAILING_STOP_PCT / 100) then
          (posAfterTick pos currentPrice).highest_price_since_entry *
            (1 - s.settings.IGNITION_TRAILING_STOP_PCT / 100)
        else (posAfterTick pos currentPrice).stop_loss) := hc
    rw [if_pos hc', if_pos hc]
    rfl
  · have hc' : ¬ currentPrice ≤
        (if (posAfterTick pos currentPrice).stop_loss <
            (posAfterTick pos currentPrice).highest_price_since_entry *
              (1 - s.settings.IGNITION_TRAILING_STOP_PCT / 100) then
          (posAfterTick pos currentPrice).highest_price_since_entry *
            (1 - s.settings.IGNITION_TRAILING_STOP_PCT / 100)
        else (posAfterTick pos currentPrice).stop_loss) := hc
    rw [if_neg hc', if_neg hc]
    rfl

/-- The position object of an Ignition position after one tick of
`checkPosition`: highest price raised, stop ratcheted, per `ignitionTick`. -/
def ignitionPosAfter (pct : ℚ) (pos : Trade) (p : ℚ) : Trade :=
  { pos with
      highest_price_since_entry := (ignitionTick pct (pos.highest_price_since_entry, pos.stop_loss) p).1
      stop_loss := (ignitionTick pct (pos.highest_price_since_entry, pos.stop_loss) p).2 }

/-- C6: for an open Ignition position with the trailing-stop feature on and
a price tick (a positive cached price): the stop is updated to
`max(stop_loss, highest_price_since_entry × (1 − trailing_pct))` (after
raising the highest price), hence it never decreases — neither on one tick
nor over any whole sequence of ticks — and no take-profit comparison is
applied: the theorem holds for every value of `pos.take_profit`, and when
the price stays above the ratcheted stop the position stays open with no
effect even if the price is at or above `take_profit`; it exits exactly
when the price is at or below the ratcheted stop, at that stop. -/
theorem c6_ignition_trailing_stop (s : BotState) (pos : Trade) (now currentPrice : ℚ)
    (hprice : mapGet s.priceCache pos.symbol = some currentPrice)
    (hpos : 0 < currentPrice)
    (hstrat : pos.strategy_type = .IGNITION)
    (htrail : s.settings.USE_IGNITION_TRAILING_STOP = true)
    (hmem : pos ∈ s.activePositions)
    (hnodup : (s.activePositions.map (fun t => t.id)).Nodup) :
    (let pct := s.settings.IGNITION_TRAILING_STOP_PCT / 100
    let newStop := (ignitionTick pct
      (pos.highest_price_since_entry, pos.stop_loss) currentPrice).2
    newStop = max pos.stop_loss
      (max pos.highest_price_since_entry currentPrice * (1 - pct)) ∧
    pos.stop_loss ≤ newStop ∧
    (∀ prices : List ℚ, pos.stop_loss ≤
      (prices.foldl (ignitionTick pct)
        (pos.highest_price_since_entry, pos.stop_loss)).2) ∧
    (currentPrice ≤ newStop →
      ∃ closedTrade,
        (checkPosition s pos now).1.tradeHistory = s.tradeHistory ++ [closedTrade] ∧
        closedTrade.exit_price = some newStop ∧
        closedTrade.status = .CLOSED ∧
        (∀ u ∈ (checkPosition s pos now).1.activePositions, u.id ≠ pos.id)) ∧
    (newStop < currentPrice →
      (checkPosition s pos now).1.tradeHistory = s.tradeHistory ∧
      (checkPosition s pos now).2 = [] ∧
      ∃ u ∈ (checkPosition s pos now).1.activePositions,
        u.id = pos.id ∧ u.stop_loss = newStop)) := by
  intro pct newStop
  have hne : currentPrice ≠ 0 := ne_of_gt hpos
  have hred := checkPosition_ignition_reduce s pos now currentPrice hprice hne hstrat htrail
  dsimp only at hred
  refine ⟨?_, ?_, ?_, ?_, ?_⟩
  · show (if pos.stop_loss < max pos.highest_price_since_entry currentPrice * (1 - pct)
        then max pos.highest_price_since_entry currentPrice * (1 - pct)
        else pos.stop_loss) =
      max pos.stop_loss (max pos.highest_price_since_entry currentPrice * (1 - pct))
    by_cases h : pos.stop_loss < max pos.highest_price_since_entry currentPrice * (1 - pct)
    · rw [if_pos h, max_eq_right h.le]
    · rw [if_neg h, max_eq_left (not_lt.mp h)]
  · exact ignitionTick_stop_le pct (pos.highest_price_since_entry, pos.stop_loss) currentPrice
  · intro prices
    exact ignitionFold_stop_mono pct prices (pos.highest_price_since_entry, pos.stop_loss)
  · intro hexit
    have hexit' : currentPrice ≤ (ignitionTick (s.settings.IGNITION_TRAILING_STOP_PCT / 100)
        (pos.highest_price_since_entry, pos.stop_loss) currentPrice).2 := hexit
    rw [if_pos hexit'] at hred
    obtain ⟨rest, hex, hrest⟩ :=
      extractById_updateById s.activePositions pos (ignitionPosAfter pct pos currentPrice)
        hmem rfl hnodup
    have hcomp := closePosition_components
      { s with activePositions :=
          updateById s.activePositions pos.id (ignitionPosAfter pct pos currentPrice) }
      (ignitionPosAfter pct pos currentPrice).id newStop now
      (ignitionPosAfter pct pos currentPrice) rest hex
    refine ⟨closedTradeOf (ignitionPosAfter pct pos currentPrice) newStop, ?_, rfl, rfl, ?_⟩
    · rw [hred]
      exact hcomp.1
    · intro u hu
      rw [hred] at hu
      have hu' : u ∈ rest := by
        rw [← hcomp.2.1]
        exact hu
      exact hrest u hu'
  · intro habove
    have habove' : ¬ currentPrice ≤ (ignitionTick (s.settings.IGNITION_TRAILING_STOP_PCT / 100)
        (pos.highest_price_since_entry, pos.stop_loss) currentPrice).2 :=
      not_le.mpr habove
    rw [if_neg habove'] at hred
    rw [hred]
    refine ⟨rfl, rfl, ⟨ignitionPosAfter pct pos currentPrice, ?_, rfl, rfl⟩⟩
    show _ ∈ updateById s.activePositions pos.id _
    have hfn : (fun u => if u.id = pos.id then ignitionPosAfter pct pos currentPrice else u) pos =
        ignitionPosAfter pct pos currentPrice := by
      simp
    unfold updateById
    rw [← hfn]
    exact List.mem_map_of_mem _ hmem
def ignitionPosition : Trade :=
  { samplePosition with strategy_type := .IGNITION }

def ignState : BotState :=
  { sampleState with
      activePositions := [ignitionPosition]
      priceCache := [("XUSDT", 110)] }

theorem c6_witness :
    (checkPosition ignState ignitionPosition 0).1.tradeHistory = ignState.tradeHistory ∧
    (checkPosition ignState ignitionPosition 0).2 = [] ∧
    ∃ u ∈ (checkPosition ignState ignitionPosition 0).1.activePositions,
      u.id = ignitionPosition.id ∧
      u.stop_loss = (ignitionTick (ignState.settings.IGNITION_TRAILING_STOP_PCT / 100)
        (ignitionPosition.highest_price_since_entry, ignitionPosition.stop_loss) 110).2 := by
  have h := c6_ignition_trailing_stop ignState ignitionPosition 0 110
    (by simp +decide [ignState, sampleState, ignitionPosition, samplePosition,
      mapGet, List.find?])
    (by norm_num)
    rfl
    rfl
    (by simp [ignState, sampleState])
    (by simp [ignState, sampleState])
  exact h.2.2.2.2 (by norm_num [ignitionTick, ignitionPosition, samplePosition,
    ignState, sampleState, sampleSettings])

end BotPYV5
